import Mathlib

/-!
# undo-tree: verification of the patch synchronization core

Shallow embedding of the patch-based synchronization engine of the
undo-tree editor extension (`src/extension.ts`): the patch data model,
the diff/apply codec, the patch inverter, the per-file tracking state
machine with its debounce coalescing, and the pull/apply/acknowledge
cycle.

The extension delegates diff computation and patch application to the
external diff-match-patch library, whose source is not part of this
repository; those two operations are therefore modelled from the
specification (their doc comments say so explicitly).  Everything else
is translated from `src/extension.ts` directly.
-/

namespace UndoTree

/-- A document snapshot: the full text content, as a list of characters. -/
abbrev Snapshot := List Char

/-- Diff operation tag, mirroring diff-match-patch's constants
`DIFF_DELETE` (-1), `DIFF_EQUAL` (0), `DIFF_INSERT` (1). -/
inductive DiffOp where
  | delete
  | equal
  | insert
deriving DecidableEq

/-- One diff segment: an operation tag together with its text, mirroring
the `[op, text]` tuples stored in a diff-match-patch patch's `diffs`. -/
structure Diff where
  op : DiffOp
  text : Snapshot
deriving DecidableEq

/-- A diff-match-patch `patch_obj`: an ordered run of diff segments plus
the offset of the patched region in the old text (`start1`) and in the new
text (`start2`), and the lengths the region spans on the old side
(`length1`) and the new side (`length2`). -/
structure patch_obj where
  diffs : List Diff
  start1 : Nat
  start2 : Nat
  length1 : Nat
  length2 : Nat
deriving DecidableEq

/-- The old-side text of one diff segment: equal and delete segments
consume old text, insertions contribute nothing on the old side. -/
def diffText1 (d : Diff) : Snapshot :=
  match d.op with
  | DiffOp.insert => []
  | _ => d.text

/-- The new-side text of one diff segment: equal and insert segments
produce new text, deletions contribute nothing on the new side. -/
def diffText2 (d : Diff) : Snapshot :=
  match d.op with
  | DiffOp.delete => []
  | _ => d.text

/-- The full old-side text of a run of diff segments (what the patch
expects to find in the base text). -/
def text1 : List Diff → Snapshot
  | [] => []
  | d :: ds => diffText1 d ++ text1 ds

/-- The full new-side text of a run of diff segments (what the patch
writes in place of the old-side text). -/
def text2 : List Diff → Snapshot
  | [] => []
  | d :: ds => diffText2 d ++ text2 ds

/-- Modelled from the spec: the shared leading run of two texts, as
computed by the diff phase of the external diff-match-patch library
(`diff_commonPrefix`), whose source is not in this repository. -/
def commonHead : Snapshot → Snapshot → Snapshot
  | x :: xs, y :: ys => if x = y then x :: commonHead xs ys else []
  | _, _ => []

/-- Modelled from the spec: the shared trailing run of two texts
(diff-match-patch's `diff_commonSuffix`), not in this repository. -/
def commonTail (a b : Snapshot) : Snapshot :=
  (commonHead a.reverse b.reverse).reverse

/-- Modelled from the spec: the edit script between two snapshots — an
ordered sequence of segments, each one of equal-span, insertion or
deletion (spec §4.1).  The shared head and tail become equal spans; the
differing middles become one deletion and one insertion.  It stands in
for the diff phase of the external diff-match-patch library. -/
def diffsOf (a b : Snapshot) : List Diff :=
  let p := commonHead a b
  let a1 := a.drop p.length
  let b1 := b.drop p.length
  let s := commonTail a1 b1
  let aMid := a1.take (a1.length - s.length)
  let bMid := b1.take (b1.length - s.length)
  (if p = [] then [] else [⟨DiffOp.equal, p⟩])
    ++ (if aMid = [] then [] else [⟨DiffOp.delete, aMid⟩])
    ++ (if bMid = [] then [] else [⟨DiffOp.insert, bMid⟩])
    ++ (if s = [] then [] else [⟨DiffOp.equal, s⟩])

/-- Modelled from the spec: `diff(old, new)` of the Patch Codec
(`dmp.patch_make` in the source, external library code not in this
repository).  Returns an empty patch list when the snapshots are equal
(spec §4.1), otherwise one `patch_obj` whose segments carry the whole
texts, with offsets in both coordinate spaces and both span lengths. -/
def patch_make (a b : Snapshot) : List patch_obj :=
  if a = b then []
  else [⟨diffsOf a b, 0, 0, a.length, b.length⟩]

/-- Modelled from the spec: the worker loop of `dmp.patch_apply`
(external library code not in this repository).  Patches are applied in
order; each patch's expected location is its `start2` shifted by the
cumulative length change `delta` of the patches already applied.  A
patch whose old-side text matches the base there is spliced in and
flagged `true`; a patch whose expected context does not match is skipped
— the text is left unchanged — and flagged `false` (the spec's
`PatchMismatch` signal, §4.1). -/
def applyLoop : List patch_obj → Snapshot → Int → Snapshot × List Bool
  | [], text, _ => (text, [])
  | p :: rest, text, delta =>
    let expected : Int := (p.start2 : Int) + delta
    let t1 := text1 p.diffs
    let t2 := text2 p.diffs
    if 0 ≤ expected ∧ (text.drop expected.toNat).take t1.length = t1 then
      let newText := text.take expected.toNat ++ t2
        ++ text.drop (expected.toNat + t1.length)
      let r := applyLoop rest newText (delta + (t2.length : Int) - (t1.length : Int))
      (r.1, true :: r.2)
    else
      let r := applyLoop rest text delta
      (r.1, false :: r.2)

/-- Modelled from the spec: `apply(patch, base)` of the Patch Codec
(`dmp.patch_apply`, external library code not in this repository).
Returns the best-effort result text together with one success flag per
patch, exactly the `[text, results]` pair the source destructures; a
`false` flag is the `PatchMismatch` signal of spec §4.1/§7. -/
def patch_apply (ps : List patch_obj) (text : Snapshot) : Snapshot × List Bool :=
  applyLoop ps text 0

/-- Inversion of one diff segment (`src/extension.ts:365-372`): the
insertion and deletion roles are swapped, equal segments are unchanged. -/
def invertDiff (d : Diff) : Diff :=
  match d.op with
  | DiffOp.insert => ⟨DiffOp.delete, d.text⟩
  | DiffOp.delete => ⟨DiffOp.insert, d.text⟩
  | DiffOp.equal => d

/-- Inversion of one `patch_obj` (`src/extension.ts:354-373`): swap
`start1` with `start2`, swap `length1` with `length2`, and invert every
diff segment inside.  The segment order within the patch is kept. -/
def invertOne (p : patch_obj) : patch_obj :=
  ⟨p.diffs.map invertDiff, p.start2, p.start1, p.length2, p.length1⟩

/-- Embedding of `invertPatch` (`src/extension.ts:345-375`): reverse the
order of the patch objects, then invert each one.  It reads only the
patch structure — no snapshot is consulted. -/
def invertPatch (forwardPatchList : List patch_obj) : List patch_obj :=
  forwardPatchList.reverse.map invertOne

/-- Embedding of the `FileState` record (`src/extension.ts:17-24`).
`content` is the last synchronized snapshot, `parentNodeId` the current
graph position, `pendingDelta` the latest not-yet-pushed buffer text and
`sendTimer` the handle of the pending debounce timer, if any.  (The
source also declares `lastDeltaSendTime`, which no code reads or
writes; it is omitted.) -/
structure FileState where
  fileId : String
  content : Snapshot
  parentNodeId : String
  pendingDelta : Option Snapshot
  sendTimer : Option Nat
deriving DecidableEq

/-- Embedding of the `PendingChange` payload (`src/extension.ts:11-15`).
The wire format carries `delta` as patch text; since the spec guarantees
`decode(encode(p)) == p` for the codec (§4.1), the embedding carries the
decoded patch list directly. -/
structure PendingChange where
  node_id : String
  delta : List patch_obj
  mode : String
deriving DecidableEq

/-- Embedding of `sendDeltaToServer` (`src/extension.ts:193-220`).
`resp` models the outcome of `createNodeOnServer`: `some nodeId` for a
201 response, `none` for any other status.  The second component is the
patch pushed over the network, if the function got that far (the POST
happens before the status is known, so a push is recorded even when
`resp` is `none`).  The source's `if (!newText || newText === oldText)`
guard early-returns when `pendingDelta` is undefined — the `none` match
arm — or falsy, which for a string includes the EMPTY string: an
emptied buffer is never pushed.  The source's later `if (!patchText)`
guard tests the serialized patch for emptiness; `patch_toText` yields
the empty string exactly on an empty patch list, so it is embedded as
the list test. -/
def sendDeltaToServer (st : FileState) (resp : Option String) :
    FileState × Option (List patch_obj) :=
  match st.pendingDelta with
  | none => (st, none)
  | some newText =>
    if newText = [] ∨ newText = st.content then (st, none)
    else
      let patchList := patch_make st.content newText
      if patchList = [] then (st, none)
      else
        match resp with
        | none => (st, some patchList)
        | some newNodeId =>
          ({ st with
              parentNodeId := newNodeId
              content := newText
              pendingDelta := none },
           some patchList)

/-- The text computed for one pulled change inside the poll loop
(`src/extension.ts:283-297`): forward application for mode `"apply"`,
application of the inverted patch for mode `"revert"`, and the untouched
local content otherwise. -/
def newTextFor (st : FileState) (ch : PendingChange) : Snapshot :=
  if ch.mode = "apply" then (patch_apply ch.delta st.content).1
  else if ch.mode = "revert" then (patch_apply (invertPatch ch.delta) st.content).1
  else st.content

/-- Embedding of one iteration of the loop in `pollAndApplyChanges`
(`src/extension.ts:279-316`).  `editorOpen` models whether
`getOpenTextEditor` finds a visible editor for the file.  An
unrecognized mode hits `continue`: no state change, no acknowledgment.
Otherwise the editor (hence `content`) is updated only when the new text
differs and an editor is visible, and the node is acknowledged and made
the current graph position unconditionally. -/
def processChange (editorOpen : Bool) (st : FileState) (ch : PendingChange) :
    FileState × Option String :=
  if ch.mode = "apply" ∨ ch.mode = "revert" then
    let newText := newTextFor st ch
    let content' :=
      if newText = st.content then st.content
      else if editorOpen then newText else st.content
    ({ st with content := content', parentNodeId := ch.node_id }, some ch.node_id)
  else
    (st, none)

/-- Embedding of `pollAndApplyChanges` (`src/extension.ts:265-333`): the
pulled changes are processed in order, threading the file state, and the
collected node ids are what the final `ack_changes` POST carries. -/
def pollAndApplyChanges (editorOpen : Bool) (st : FileState)
    (changes : List PendingChange) : FileState × List String :=
  changes.foldl
    (fun acc ch =>
      let r := processChange editorOpen acc.1 ch
      (r.1, acc.2 ++ r.2.toList))
    (st, [])

/-- An event hitting one tracked file: a buffer-change notification
(which scheduled the fresh debounce timer `tid`) or the firing of the
timer with handle `tid`. -/
inductive EditorEvent where
  | edit (text : Snapshot) (tid : Nat)
  | fire (tid : Nat)

/-- Embedding of the `onDidChangeTextDocument` handler
(`src/extension.ts:105-128`): the whole new buffer text overwrites
`pendingDelta`, the previous timer is cancelled via `clearTimeout` and a
fresh one is scheduled; `tid` is the fresh timer's handle. -/
def onChange (st : FileState) (text : Snapshot) (tid : Nat) : FileState :=
  { st with pendingDelta := some text, sendTimer := some tid }

/-- One step of the event semantics.  A `fire tid` runs
`sendDeltaToServer` only when `tid` is still the scheduled timer — a
timer cancelled by `clearTimeout` in a later `onChange` never runs its
callback, which the guard models.  The second component logs every
patch pushed over the network. -/
def stepEvent (resp : Option String) (acc : FileState × List (List patch_obj)) :
    EditorEvent → FileState × List (List patch_obj)
  | EditorEvent.edit t tid => (onChange acc.1 t tid, acc.2)
  | EditorEvent.fire tid =>
    if acc.1.sendTimer = some tid then
      let r := sendDeltaToServer acc.1 resp
      (r.1, acc.2 ++ r.2.toList)
    else acc

/-- Run a sequence of events against a file state, collecting the
network pushes. -/
def runEvents (resp : Option String) (acc : FileState × List (List patch_obj))
    (events : List EditorEvent) : FileState × List (List patch_obj) :=
  events.foldl (stepEvent resp) acc

/-! ## Codec lemmas -/

theorem commonHead_append_drop_left (a b : Snapshot) :
    commonHead a b ++ a.drop (commonHead a b).length = a := by
  induction a generalizing b with
  | nil => cases b <;> simp [commonHead]
  | cons x xs ih =>
    cases b with
    | nil => simp [commonHead]
    | cons y ys =>
      by_cases h : x = y
      · simp [commonHead, h, ih ys]
      · simp [commonHead, h]

theorem commonHead_append_drop_right (a b : Snapshot) :
    commonHead a b ++ b.drop (commonHead a b).length = b := by
  induction a generalizing b with
  | nil => cases b <;> simp [commonHead]
  | cons x xs ih =>
    cases b with
    | nil => simp [commonHead]
    | cons y ys =>
      by_cases h : x = y
      · simp [commonHead, h, ih ys]
      · simp [commonHead, h]

theorem commonHead_prefix_left (a b : Snapshot) : commonHead a b <+: a :=
  ⟨a.drop (commonHead a b).length, commonHead_append_drop_left a b⟩

theorem commonHead_prefix_right (a b : Snapshot) : commonHead a b <+: b :=
  ⟨b.drop (commonHead a b).length, commonHead_append_drop_right a b⟩

theorem commonTail_suffix_left (a b : Snapshot) : commonTail a b <:+ a := by
  have h : commonHead a.reverse b.reverse <+: a.reverse :=
    commonHead_prefix_left a.reverse b.reverse
  have h2 : (commonHead a.reverse b.reverse).reverse <:+ a.reverse.reverse :=
    List.reverse_suffix.mpr h
  simpa [commonTail] using h2

theorem commonTail_suffix_right (a b : Snapshot) : commonTail a b <:+ b := by
  have h : commonHead a.reverse b.reverse <+: b.reverse :=
    commonHead_prefix_right a.reverse b.reverse
  have h2 : (commonHead a.reverse b.reverse).reverse <:+ b.reverse.reverse :=
    List.reverse_suffix.mpr h
  simpa [commonTail] using h2

theorem take_sub_append_of_suffix {s a : Snapshot} (h : s <:+ a) :
    a.take (a.length - s.length) ++ s = a := by
  obtain ⟨t, ht⟩ := h
  subst ht
  have hlen : (t ++ s).length - s.length = t.length := by simp
  rw [hlen, List.take_left]

theorem text1_append (xs ys : List Diff) :
    text1 (xs ++ ys) = text1 xs ++ text1 ys := by
  induction xs with
  | nil => simp [text1]
  | cons d ds ih => simp [text1, ih]

theorem text2_append (xs ys : List Diff) :
    text2 (xs ++ ys) = text2 xs ++ text2 ys := by
  induction xs with
  | nil => simp [text2]
  | cons d ds ih => simp [text2, ih]

theorem text1_segments (p aMid bMid s : Snapshot) :
    text1 ((if p = [] then [] else [⟨DiffOp.equal, p⟩])
      ++ (if aMid = [] then [] else [⟨DiffOp.delete, aMid⟩])
      ++ (if bMid = [] then [] else [⟨DiffOp.insert, bMid⟩])
      ++ (if s = [] then [] else [⟨DiffOp.equal, s⟩])) = (p ++ aMid) ++ s := by
  by_cases hp : p = [] <;> by_cases ha : aMid = [] <;>
    by_cases hb : bMid = [] <;> by_cases hs : s = [] <;>
    simp [hp, ha, hb, hs, text1_append, text1, diffText1]

theorem text2_segments (p aMid bMid s : Snapshot) :
    text2 ((if p = [] then [] else [⟨DiffOp.equal, p⟩])
      ++ (if aMid = [] then [] else [⟨DiffOp.delete, aMid⟩])
      ++ (if bMid = [] then [] else [⟨DiffOp.insert, bMid⟩])
      ++ (if s = [] then [] else [⟨DiffOp.equal, s⟩])) = (p ++ bMid) ++ s := by
  by_cases hp : p = [] <;> by_cases ha : aMid = [] <;>
    by_cases hb : bMid = [] <;> by_cases hs : s = [] <;>
    simp [hp, ha, hb, hs, text2_append, text2, diffText2]

theorem text1_diffsOf (a b : Snapshot) : text1 (diffsOf a b) = a := by
  have h2 := take_sub_append_of_suffix
    (commonTail_suffix_left (a.drop (commonHead a b).length) (b.drop (commonHead a b).length))
  have h1 := commonHead_append_drop_left a b
  simp only [diffsOf]
  rw [text1_segments, List.append_assoc, h2, h1]

theorem text2_diffsOf (a b : Snapshot) : text2 (diffsOf a b) = b := by
  have h2 := take_sub_append_of_suffix
    (commonTail_suffix_right (a.drop (commonHead a b).length) (b.drop (commonHead a b).length))
  have h1 := commonHead_append_drop_right a b
  simp only [diffsOf]
  rw [text2_segments, List.append_assoc, h2, h1]

theorem patch_make_eq_nil_iff (a b : Snapshot) : patch_make a b = [] ↔ a = b := by
  by_cases h : a = b <;> simp [patch_make, h]

theorem text1_map_invertDiff (ds : List Diff) :
    text1 (ds.map invertDiff) = text2 ds := by
  induction ds with
  | nil => simp [text1, text2]
  | cons d rest ih =>
    obtain ⟨op, t⟩ := d
    cases op <;> simp [text1, text2, invertDiff, diffText1, diffText2, ih]

theorem text2_map_invertDiff (ds : List Diff) :
    text2 (ds.map invertDiff) = text1 ds := by
  induction ds with
  | nil => simp [text1, text2]
  | cons d rest ih =>
    obtain ⟨op, t⟩ := d
    cases op <;> simp [text1, text2, invertDiff, diffText1, diffText2, ih]

theorem invertDiff_invertDiff (d : Diff) : invertDiff (invertDiff d) = d := by
  obtain ⟨op, t⟩ := d
  cases op <;> rfl

theorem invertOne_invertOne (p : patch_obj) : invertOne (invertOne p) = p := by
  obtain ⟨ds, s1, s2, l1, l2⟩ := p
  simp only [invertOne, List.map_map]
  have h : invertDiff ∘ invertDiff = id := funext invertDiff_invertDiff
  simp [h]

/-! ## Tracker lemmas -/

theorem processChange_revert_eq (st : FileState) (n : String)
    (delta : List patch_obj) :
    processChange true st ⟨n, delta, "revert"⟩ =
      ({ st with
          content := (patch_apply (invertPatch delta) st.content).1
          parentNodeId := n }, some n) := by
  by_cases hnt : (patch_apply (invertPatch delta) st.content).1 = st.content
  · simp +decide [processChange, newTextFor, hnt]
  · simp +decide [processChange, newTextFor, hnt]

/-! ## Claim theorems -/

end UndoTree

/-- C7: for every pair of snapshots (A, B), applying the patch
`diff(A, B)` to A yields B exactly, byte for byte, and the diff of a
snapshot against itself is the empty patch. -/
theorem UndoTree.diff_apply_round_trip (A B : UndoTree.Snapshot) :
    (UndoTree.patch_apply (UndoTree.patch_make A B) A).1 = B
    ∧ UndoTree.patch_make A A = [] := by
  constructor
  · by_cases h : A = B
    · simp [UndoTree.patch_make, h, UndoTree.patch_apply, UndoTree.applyLoop]
    · have ht1 := UndoTree.text1_diffsOf A B
      have ht2 := UndoTree.text2_diffsOf A B
      simp [UndoTree.patch_make, h, UndoTree.patch_apply, UndoTree.applyLoop,
        ht1, ht2, List.take_length, List.drop_length]
  · simp [UndoTree.patch_make]

/-- C1: for every pair of snapshots (A, B), applying the inverted patch
`invertPatch(diff(A, B))` — computed purely from the patch structure,
without access to B — to B reproduces A exactly. -/
theorem UndoTree.inversion_correct (A B : UndoTree.Snapshot) :
    (UndoTree.patch_apply (UndoTree.invertPatch (UndoTree.patch_make A B)) B).1 = A := by
  by_cases h : A = B
  · simp [UndoTree.patch_make, h, UndoTree.invertPatch, UndoTree.patch_apply,
      UndoTree.applyLoop]
  · have ht1 : UndoTree.text1 ((UndoTree.diffsOf A B).map UndoTree.invertDiff) = B := by
      rw [UndoTree.text1_map_invertDiff, UndoTree.text2_diffsOf]
    have ht2 : UndoTree.text2 ((UndoTree.diffsOf A B).map UndoTree.invertDiff) = A := by
      rw [UndoTree.text2_map_invertDiff, UndoTree.text1_diffsOf]
    simp [UndoTree.patch_make, h, UndoTree.invertPatch, UndoTree.invertOne,
      UndoTree.patch_apply, UndoTree.applyLoop, ht1, ht2,
      List.take_length, List.drop_length]

/-- C8: inverting a patch twice restores the original patch structurally
(reversing the order twice, swapping insert/delete roles twice and
swapping the start/length field pairs twice are all involutions), and
inverting the empty patch yields the empty patch. -/
theorem UndoTree.invert_involutive (p : List UndoTree.patch_obj) :
    UndoTree.invertPatch (UndoTree.invertPatch p) = p
    ∧ UndoTree.invertPatch ([] : List UndoTree.patch_obj) = [] := by
  constructor
  · simp [UndoTree.invertPatch, List.map_reverse, List.reverse_reverse,
      List.map_map]
    have h : UndoTree.invertOne ∘ UndoTree.invertOne = id :=
      funext UndoTree.invertOne_invertOne
    simp [h]
  · rfl

/-- C3: a pulled change in mode "revert" makes the client invert the
supplied forward patch, apply the inversion to the current local
content, and set the current node id to the change's node id; in
particular, with local content "hello world" and the forward patch
diff("hello", "hello world") delivered as node "n7", processing leaves
local content "hello" and current node "n7". -/
theorem UndoTree.revert_applies_inverted_patch :
    (∀ (st : UndoTree.FileState) (n : String) (delta : List UndoTree.patch_obj),
        UndoTree.processChange true st ⟨n, delta, "revert"⟩ =
          ({ st with
              content := (UndoTree.patch_apply (UndoTree.invertPatch delta) st.content).1
              parentNodeId := n }, some n))
    ∧ (UndoTree.processChange true ⟨"f", "hello world".data, "root", none, none⟩
          ⟨"n7", UndoTree.patch_make "hello".data "hello world".data, "revert"⟩).1.content
        = "hello".data
    ∧ (UndoTree.processChange true ⟨"f", "hello world".data, "root", none, none⟩
          ⟨"n7", UndoTree.patch_make "hello".data "hello world".data, "revert"⟩).1.parentNodeId
        = "n7" :=
  ⟨UndoTree.processChange_revert_eq, by decide, by decide⟩

/-- C4: when a debounce-triggered push fails (node creation returned a
status other than 201, modelled as `resp = none`), the FileState is left
entirely unchanged — content, parentNodeId and pendingDelta all keep
their prior values, so a later debounce expiry retries from the same
diff base. -/
theorem UndoTree.push_failure_leaves_state_unchanged (st : UndoTree.FileState) :
    (UndoTree.sendDeltaToServer st none).1 = st := by
  obtain ⟨fid, c, pn, pd, tm⟩ := st
  cases pd with
  | none => rfl
  | some t =>
    by_cases he : t = [] ∨ t = c
    · simp [UndoTree.sendDeltaToServer, he]
    · by_cases hp : UndoTree.patch_make c t = []
      · simp [UndoTree.sendDeltaToServer, he, hp]
      · simp [UndoTree.sendDeltaToServer, he, hp]

/-- C5 counterexample: when the last text of the window is the empty
string, the source's falsy-string guard (`!newText`,
`src/extension.ts:197`) drops the batch: with content "a" and edits
"x", "y", "" in one window, ZERO pushes occur, refuting the original
claim that exactly one push occurs carrying diff(content-before, T3)
for every such window. -/
theorem UndoTree.empty_final_text_pushes_nothing :
    (UndoTree.runEvents (some "n1")
        ((⟨"f", "a".data, "root", none, none⟩ : UndoTree.FileState), [])
        [UndoTree.EditorEvent.edit "x".data 1, UndoTree.EditorEvent.edit "y".data 2,
         UndoTree.EditorEvent.edit "".data 3, UndoTree.EditorEvent.fire 1,
         UndoTree.EditorEvent.fire 2, UndoTree.EditorEvent.fire 3]).2
      = []
    ∧ ("".data ≠ ("a".data : UndoTree.Snapshot)) :=
  ⟨by decide, by decide⟩

/-- C5 (amended): buffer-change notifications inside one debounce window
each overwrite pendingDelta with the latest full text and
cancel-reschedule the debounce timer, so that — provided the final text
T3 is nonempty and differs from the content before the window — even if
every scheduled timer handle is driven, exactly one push happens, and
its patch is diff(content-before, T3), never three separate pushes.
(When T3 is the empty string the falsy-string guard drops the batch and
no push occurs.) -/
theorem UndoTree.debounce_coalesces_to_one_push
    (st : UndoTree.FileState) (T1 T2 T3 : UndoTree.Snapshot) (resp : Option String)
    (h : T3 ≠ st.content) (hne : T3 ≠ []) :
    (UndoTree.runEvents resp (st, [])
        [UndoTree.EditorEvent.edit T1 1, UndoTree.EditorEvent.edit T2 2,
         UndoTree.EditorEvent.edit T3 3, UndoTree.EditorEvent.fire 1,
         UndoTree.EditorEvent.fire 2, UndoTree.EditorEvent.fire 3]).2
      = [UndoTree.patch_make st.content T3]
    ∧ (UndoTree.runEvents resp (st, [])
        [UndoTree.EditorEvent.edit T1 1, UndoTree.EditorEvent.edit T2 2,
         UndoTree.EditorEvent.edit T3 3]).1.pendingDelta = some T3 := by
  have h2 : ¬ (UndoTree.patch_make st.content T3 = []) := by
    rw [UndoTree.patch_make_eq_nil_iff]
    exact fun e => h e.symm
  obtain ⟨fid, c, pn, pd, tm⟩ := st
  cases resp <;>
    simp_all [UndoTree.runEvents, UndoTree.stepEvent, UndoTree.onChange,
      UndoTree.sendDeltaToServer]

/-- C5 witness: a concrete window with edits "x", "y", "ab" over content
"a" produces exactly one push, carrying diff("a", "ab"). -/
theorem UndoTree.debounce_coalesces_to_one_push_witness :
    ("ab".data ≠ ("a".data : UndoTree.Snapshot))
    ∧ ("ab".data ≠ ([] : UndoTree.Snapshot))
    ∧ ((UndoTree.runEvents (some "n1")
        ((⟨"f", "a".data, "root", none, none⟩ : UndoTree.FileState), [])
        [UndoTree.EditorEvent.edit "x".data 1, UndoTree.EditorEvent.edit "y".data 2,
         UndoTree.EditorEvent.edit "ab".data 3, UndoTree.EditorEvent.fire 1,
         UndoTree.EditorEvent.fire 2, UndoTree.EditorEvent.fire 3]).2
        = [UndoTree.patch_make "a".data "ab".data]
      ∧ (UndoTree.runEvents (some "n1")
        ((⟨"f", "a".data, "root", none, none⟩ : UndoTree.FileState), [])
        [UndoTree.EditorEvent.edit "x".data 1, UndoTree.EditorEvent.edit "y".data 2,
         UndoTree.EditorEvent.edit "ab".data 3]).1.pendingDelta = some "ab".data) :=
  ⟨by decide, by decide, UndoTree.debounce_coalesces_to_one_push
    ⟨"f", "a".data, "root", none, none⟩ "x".data "y".data "ab".data (some "n1")
    (by decide) (by decide)⟩

/-- C6 counterexample: with content "a" and pendingDelta "a", the diff
of content against pendingDelta is empty, no network call is made — but
pendingDelta is NOT cleared: `sendDeltaToServer` returns through the
equality early-return, leaving pendingDelta in place. -/
theorem UndoTree.empty_diff_does_not_clear_pending :
    UndoTree.patch_make "a".data "a".data = []
    ∧ (UndoTree.sendDeltaToServer
        ⟨"f", "a".data, "p", some "a".data, none⟩ (some "n1")).2 = none
    ∧ (UndoTree.sendDeltaToServer
        ⟨"f", "a".data, "p", some "a".data, none⟩ (some "n1")).1.pendingDelta
      = some "a".data :=
  ⟨by decide, by decide, by decide⟩

/-- C6 (amended): on debounce expiry, if pendingDelta is absent or
equals content, no network call is made and the whole FileState is left
unchanged; likewise, when the computed diff of content against
pendingDelta is empty, no network call is made and pendingDelta is left
in place (not cleared). -/
theorem UndoTree.debounce_noop_cases (st : UndoTree.FileState) (resp : Option String) :
    (st.pendingDelta = none → UndoTree.sendDeltaToServer st resp = (st, none))
    ∧ (∀ t, st.pendingDelta = some t → t = st.content →
        UndoTree.sendDeltaToServer st resp = (st, none))
    ∧ (∀ t, st.pendingDelta = some t → UndoTree.patch_make st.content t = [] →
        UndoTree.sendDeltaToServer st resp = (st, none)) := by
  obtain ⟨fid, c, pn, pd, tm⟩ := st
  refine ⟨?_, ?_, ?_⟩
  · intro h
    simp only at h
    subst h
    rfl
  · intro t ht he
    simp only at ht
    subst ht
    subst he
    simp [UndoTree.sendDeltaToServer]
  · intro t ht hp
    simp only at ht
    subst ht
    have he : c = t := (UndoTree.patch_make_eq_nil_iff c t).mp hp
    subst he
    simp [UndoTree.sendDeltaToServer]

/-- C6 witness: the no-op cases evaluated at content "a" with
pendingDelta "a". -/
theorem UndoTree.debounce_noop_cases_witness :
    UndoTree.sendDeltaToServer
        ⟨"f", "a".data, "p", some "a".data, none⟩ (some "n1")
      = (⟨"f", "a".data, "p", some "a".data, none⟩, none) :=
  (UndoTree.debounce_noop_cases
    ⟨"f", "a".data, "p", some "a".data, none⟩ (some "n1")).2.1 "a".data rfl rfl

/-- C2: how the code actually behaves on a PatchMismatch during a pull
batch, evaluated at a concrete input.  The patch diff("abc", "abx")
does not apply to local content "zzz" (the apply results flag is
`false`), local content stays "zzz" — yet the change's node id "n1" is
still pushed into the acknowledgment list and made the current node,
contradicting the claim that a mismatched change is excluded from
acknowledgment. -/
theorem UndoTree.mismatched_change_still_acknowledged :
    (UndoTree.patch_apply
        (UndoTree.patch_make "abc".data "abx".data) "zzz".data).2 = [false]
    ∧ UndoTree.pollAndApplyChanges true ⟨"f", "zzz".data, "root", none, none⟩
        [⟨"n1", UndoTree.patch_make "abc".data "abx".data, "apply"⟩]
      = (⟨"f", "zzz".data, "n1", none, none⟩, ["n1"]) :=
  ⟨by decide, by decide⟩

/-- C9: a pulled change whose mode is neither "apply" nor "revert" is
skipped without aborting the batch: processing the batch with the
unknown-mode change at its head equals processing the remaining changes
alone (so its node id is never acknowledged), and the skipped change
leaves the state untouched. -/
theorem UndoTree.unknown_mode_skipped (editorOpen : Bool) (st : UndoTree.FileState)
    (ch : UndoTree.PendingChange) (rest : List UndoTree.PendingChange)
    (h1 : ch.mode ≠ "apply") (h2 : ch.mode ≠ "revert") :
    UndoTree.pollAndApplyChanges editorOpen st (ch :: rest)
      = UndoTree.pollAndApplyChanges editorOpen st rest
    ∧ UndoTree.processChange editorOpen st ch = (st, none) := by
  have hpc : UndoTree.processChange editorOpen st ch = (st, none) := by
    simp [UndoTree.processChange, h1, h2]
  refine ⟨?_, hpc⟩
  simp [UndoTree.pollAndApplyChanges, hpc]

/-- C9 witness: a change in mode "checkpoint" is skipped and the rest of
the batch still processed. -/
theorem UndoTree.unknown_mode_skipped_witness :
    (("checkpoint" : String) ≠ "apply")
    ∧ (("checkpoint" : String) ≠ "revert")
    ∧ (UndoTree.pollAndApplyChanges true ⟨"f", "a".data, "root", none, none⟩
        [⟨"n1", [], "checkpoint"⟩, ⟨"n2", [], "apply"⟩]
      = UndoTree.pollAndApplyChanges true ⟨"f", "a".data, "root", none, none⟩
        [⟨"n2", [], "apply"⟩]
      ∧ UndoTree.processChange true ⟨"f", "a".data, "root", none, none⟩
          ⟨"n1", [], "checkpoint"⟩
        = (⟨"f", "a".data, "root", none, none⟩, none)) :=
  ⟨by decide, by decide,
    UndoTree.unknown_mode_skipped true ⟨"f", "a".data, "root", none, none⟩
      ⟨"n1", [], "checkpoint"⟩ [⟨"n2", [], "apply"⟩] (by decide) (by decide)⟩

/-- C10: when no visible editor exists for the file, a pulled change in
mode "apply" or "revert" whose patch application produces text different
from the current content leaves content unchanged but still advances
parentNodeId to the change's node id and acknowledges it — the current
node can move past the snapshot the content actually holds. -/
theorem UndoTree.ack_advances_without_editor (st : UndoTree.FileState)
    (ch : UndoTree.PendingChange)
    (hm : ch.mode = "apply" ∨ ch.mode = "revert")
    (hd : UndoTree.newTextFor st ch ≠ st.content) :
    UndoTree.pollAndApplyChanges false st [ch]
      = ({ st with parentNodeId := ch.node_id }, [ch.node_id]) := by
  simp [UndoTree.pollAndApplyChanges, UndoTree.processChange, hm, hd]

/-- C10 witness: node "n9" carrying diff("a", "ab") arrives in mode
"apply" while no editor is visible; content stays "a" but the current
node becomes "n9" and "n9" is acknowledged. -/
theorem UndoTree.ack_advances_without_editor_witness :
    ((("apply" : String) = "apply" ∨ ("apply" : String) = "revert")
    ∧ UndoTree.newTextFor ⟨"f", "a".data, "root", none, none⟩
        ⟨"n9", UndoTree.patch_make "a".data "ab".data, "apply"⟩ ≠ "a".data)
    ∧ UndoTree.pollAndApplyChanges false ⟨"f", "a".data, "root", none, none⟩
        [⟨"n9", UndoTree.patch_make "a".data "ab".data, "apply"⟩]
      = (⟨"f", "a".data, "n9", none, none⟩, ["n9"]) :=
  ⟨⟨Or.inl rfl, by decide⟩, by
    have h := UndoTree.ack_advances_without_editor
      ⟨"f", "a".data, "root", none, none⟩
      ⟨"n9", UndoTree.patch_make "a".data "ab".data, "apply"⟩
      (Or.inl rfl) (by decide)
    exact h⟩
